import Mathlib

/-!
Shallow embedding of the "Kenzies Fridge" leaderboard backend (src/main.py).

The persisted JSON document is modelled by `Doc`.  Python dicts are modelled
as association lists in insertion order (Python dicts preserve insertion
order; `setdefault` appends a missing key at the end).  Python floats are
modelled by `ℚ`; `round(x, 2)` is modelled by `round2`, using round-half-to-even
as Python's `round` does.  A JSON field that must be coerced with
`float(...)` is modelled by `NumField`: `num q` is a value coercible to the
number `q`, `bad` a present value on which `float` raises, `missing` an
absent key.  Each HTTP handler becomes a pure function from the loaded
document (plus the request and the current timestamp) to the document it
writes back and the response; a handler that raises before `_write_db`
returns `Except.error`, and the store keeps its old value.
-/

namespace Kenztopia

/-- `START_BALANCE` from main.py. -/
def START_BALANCE : ℚ := 5000

/-- Round-half-to-even to an integer, as Python's builtin `round` behaves on
exact halves. -/
def rhe (q : ℚ) : ℤ :=
  let f := ⌊q⌋
  let r := q - (f : ℚ)
  if r < 1/2 then f
  else if 1/2 < r then f + 1
  else if f % 2 = 0 then f else f + 1

/-- Python's `round(x, 2)`. -/
def round2 (q : ℚ) : ℚ := (rhe (q * 100) : ℚ) / 100

/-- Python's `s.lower()` (the relevant inputs are ASCII). -/
def pyLower (s : String) : String := String.mk (s.data.map Char.toLower)

/-- Python's `s.strip()`: drop whitespace from both ends. -/
def pyStrip (s : String) : String :=
  String.mk (((s.data.dropWhile Char.isWhitespace).reverse.dropWhile
    Char.isWhitespace).reverse)

/-- Python's `s[:n]`: the first `n` characters. -/
def pyTake (s : String) (n : ℕ) : String := String.mk (s.data.take n)

/-- A JSON field read with `float(u.get(k, default))`: a numeric (coercible)
value, a present value on which `float` raises, or an absent key. -/
inductive NumField where
  | num (q : ℚ)
  | bad
  | missing
deriving DecidableEq

/-- `float(f.get(k, START_BALANCE))` wrapped in `try/except` with fallback
`START_BALANCE`: coercion failure and absence both yield `START_BALANCE`. -/
def NumField.coerceStart : NumField → ℚ
  | .num q => q
  | .bad => START_BALANCE
  | .missing => START_BALANCE

/-- `u.setdefault(k, START_BALANCE)`: fills in an absent key only. -/
def NumField.orStart : NumField → NumField
  | .missing => .num START_BALANCE
  | f => f

/-- `float(u.get(k, START_BALANCE))` with no `try`: raises (`none`) on a
present non-coercible value. -/
def NumField.coerce? : NumField → Option ℚ
  | .num q => some q
  | .bad => none
  | .missing => some START_BALANCE

/-- One value of the `users` mapping in the document. -/
structure UserRec where
  nickname : String
  balance : NumField
  last_update : Option String
  trades : ℤ
  wins : ℤ
  period_start_balance : NumField
deriving DecidableEq

/-- The record `setdefault` installs for a new user id (main.py lines 262/339). -/
def defaultUser : UserRec :=
  { nickname := ""
    balance := .num START_BALANCE
    last_update := none
    trades := 0
    wins := 0
    period_start_balance := .num START_BALANCE }

/-- One element of `recent_trades`. -/
structure TradeEntry where
  ts : String
  user_id : String
  nickname : String
  result : String
  amount : ℚ
deriving DecidableEq

/-- One element of a stored podium. -/
structure PodiumEntry where
  position : ℕ
  user_id : String
  nickname : String
  balance : ℚ
deriving DecidableEq

/-- One value of the `monthly_winners` mapping. -/
structure PodiumSnapshot where
  podium : List PodiumEntry
  closed_at : String
deriving DecidableEq

/-- The whole persisted JSON document. -/
structure Doc where
  users : List (String × UserRec)
  monthly_winners : List (String × PodiumSnapshot)
  last_month_closed : Option String
  recent_trades : List TradeEntry
deriving DecidableEq

/-- The default empty document `_read_db` synthesizes. -/
def Doc.empty : Doc :=
  { users := [], monthly_winners := [], last_month_closed := none, recent_trades := [] }

/-- Python `d.get(k)` on an insertion-ordered dict. -/
def alGet {α : Type} (l : List (String × α)) (k : String) : Option α :=
  (l.find? (fun p => p.1 = k)).map (fun p => p.2)

/-- Python `d[k] = v` for a key already present: replace in place. -/
def alSet {α : Type} (l : List (String × α)) (k : String) (v : α) : List (String × α) :=
  l.map (fun p => if p.1 = k then (k, v) else p)

/-- Python `d.setdefault(k, v)`: the updated dict and the value at `k`.
A missing key is appended at the end, as dict insertion order does. -/
def alSetdefault {α : Type} (l : List (String × α)) (k : String) (v : α) :
    List (String × α) × α :=
  match alGet l k with
  | some u => (l, u)
  | none => (l ++ [(k, v)], v)

/-- `compute_user_metrics`'s result dict. -/
structure Metrics where
  performance : ℚ
  win_rate : ℚ
  trades_this_period : ℤ
  wins : ℤ
  period_start_balance : ℚ
  balance : ℚ
deriving DecidableEq

/-- `compute_user_metrics` (main.py lines 117-146). -/
def compute_user_metrics (u : UserRec) : Metrics :=
  let balance := u.balance.coerceStart
  let start := u.period_start_balance.coerceStart
  let performance : ℚ := if start = 0 then 0 else ((balance - start) / start) * 100
  let trades := u.trades
  let wins := u.wins
  let win_rate : ℚ := if trades ≤ 0 then 0 else ((wins : ℚ) / (trades : ℚ)) * 100
  { performance := round2 performance
    win_rate := round2 win_rate
    trades_this_period := trades
    wins := wins
    period_start_balance := round2 start
    balance := round2 balance }

/-- The `(uid, nickname, balance)` triple built for each user by
`compute_podium_snapshot`, with the `try: float ... except: START_BALANCE`
coercion of the balance. -/
def podiumTriple (p : String × UserRec) : String × String × ℚ :=
  (p.1, p.2.nickname, p.2.balance.coerceStart)

/-- The descending-by-balance comparison `arr.sort(key=lambda x: x[2],
reverse=True)` sorts by (Python's sort is stable, and `reverse=True`
preserves the original order of ties). -/
def balDesc (a b : String × String × ℚ) : Bool := decide (b.2.2 ≤ a.2.2)

/-- `compute_podium_snapshot` (main.py lines 97-115). -/
def compute_podium_snapshot (users : List (String × UserRec)) (top_n : ℕ := 3) :
    List PodiumEntry :=
  let arr := users.map podiumTriple
  let sorted := arr.mergeSort balDesc
  ((sorted.take top_n).enum).map (fun p =>
    { position := p.1 + 1
      user_id := p.2.1
      nickname := p.2.2.1
      balance := round2 p.2.2.2 })

/-- Body of `POST /api/user/{user_id}` (pydantic `UserUpdate`): pydantic has
already coerced `balance`/`period_start_balance` to floats and
`trades`/`wins` to ints when present. -/
structure UserUpdate where
  nickname : Option String := none
  balance : Option ℚ := none
  trades : Option ℤ := none
  wins : Option ℤ := none
  period_start_balance : Option ℚ := none
deriving DecidableEq

/-- The `if upd.nickname is not None` block of `update_user` (lines 272-276):
returns the record after the block and `changed_nick`. -/
def applyNickUpd (u : UserRec) : Option String → UserRec × Option String
  | none => (u, none)
  | some nk =>
    let n := pyTake (pyStrip nk) 40
    if n = u.nickname then (u, none)
    else ({ u with nickname := n }, some n)

/-- The `if upd.balance is not None` block (lines 278-282); `float(upd.balance)`
cannot raise on a pydantic float, so the `except` arm is dead. -/
def applyBalanceUpd (u : UserRec) : Option ℚ → UserRec
  | none => u
  | some b => { u with balance := .num (round2 b) }

/-- The `if upd.trades is not None` block (lines 284-288). -/
def applyTradesUpd (u : UserRec) : Option ℤ → UserRec
  | none => u
  | some t => { u with trades := t }

/-- The `if upd.wins is not None` block (lines 290-294). -/
def applyWinsUpd (u : UserRec) : Option ℤ → UserRec
  | none => u
  | some w => { u with wins := w }

/-- The `if upd.period_start_balance is not None` block (lines 296-300). -/
def applyPsbUpd (u : UserRec) : Option ℚ → UserRec
  | none => u
  | some s => { u with period_start_balance := .num (round2 s) }

/-- Python truthiness of the `changed_nick` variable: `None` and `""` are
falsy. -/
def nickTruthy : Option String → Bool
  | none => false
  | some s => s ≠ ""

/-- Rewrite the `nickname` of every feed entry whose `user_id` matches
(the `for ent in recent` propagation loop). -/
def propagateNick (uid n : String) (recent : List TradeEntry) : List TradeEntry :=
  recent.map (fun e => if e.user_id = uid then { e with nickname := n } else e)

/-- `update_user` (main.py lines 257-313): the document written back by
`_write_db` and the updated record the response echoes. -/
def update_user (uid : String) (upd : UserUpdate) (now : String) (d : Doc) :
    Doc × UserRec :=
  let sd := alSetdefault d.users uid defaultUser
  let nick := applyNickUpd sd.2 upd.nickname
  let u1 := applyBalanceUpd nick.1 upd.balance
  let u2 := applyTradesUpd u1 upd.trades
  let u3 := applyWinsUpd u2 upd.wins
  let u4 := applyPsbUpd u3 upd.period_start_balance
  let u5 := { u4 with last_update := some now }
  let recent :=
    if nickTruthy nick.2 then propagateNick uid (nick.2.getD "") d.recent_trades
    else d.recent_trades
  ({ d with users := alSet sd.1 uid u5, recent_trades := recent }, u5)

/-- Body of `POST /api/user/{user_id}/trade` (pydantic `TradeRecord`). -/
structure TradeRecord where
  result : String
  amount : Option ℚ := none
  nickname : Option String := none
deriving DecidableEq

/-- How a trade request can fail before reaching `_write_db`: the explicit
400 for a bad `result`, or an uncaught `float` failure on a stored
non-numeric balance (line 384 has no `try`). -/
inductive TradeErr where
  | invalidArgument
  | internalError
deriving DecidableEq

/-- The `if tr.nickname is not None` block of `record_trade` (lines 348-360):
unlike `update_user`, the propagation loop sits inside the `n != stored`
test, so it also runs when the new nickname is the empty string. -/
def nickStepTrade (uid : String) (u : UserRec) (recent : List TradeEntry) :
    Option String → UserRec × List TradeEntry
  | none => (u, recent)
  | some nk =>
    let n := pyTake (pyStrip nk) 40
    if n = u.nickname then (u, recent)
    else ({ u with nickname := n }, propagateNick uid n recent)

/-- `record_trade` (main.py lines 334-423): `Except.error` models an
exception raised before `_write_db`, leaving the stored document untouched;
`.ok` carries the document written back and the updated record. -/
def record_trade (uid : String) (tr : TradeRecord) (now : String) (d : Doc) :
    Except TradeErr (Doc × UserRec) :=
  let sd := alSetdefault d.users uid defaultUser
  let nick := nickStepTrade uid sd.2 d.recent_trades tr.nickname
  let u1 := { nick.1 with
              balance := nick.1.balance.orStart
              period_start_balance := nick.1.period_start_balance.orStart }
  let res := pyLower tr.result
  if res = "win" ∨ res = "lose" then
    let u2 := { u1 with trades := u1.trades + 1 }
    let u3 := if res = "win" then { u2 with wins := u2.wins + 1 } else u2
    let amt : ℚ := tr.amount.getD 0
    let bal? : Option NumField :=
      match tr.amount with
      | none => some u3.balance
      | some _ =>
        match u3.balance.coerce? with
        | none => none
        | some b =>
          some (.num (round2 (if res = "win" then b + amt else b - amt)))
    match bal? with
    | none => .error .internalError
    | some bal =>
      let u4 := { u3 with balance := bal, last_update := some now }
      let entry : TradeEntry :=
        { ts := now
          user_id := uid
          nickname := u4.nickname
          result := res
          amount := round2 amt }
      let recent := (entry :: nick.2).take 500
      .ok ({ d with users := alSet sd.1 uid u4, recent_trades := recent }, u4)
  else .error .invalidArgument

/-- The document persisted after a `POST .../trade` request: `_write_db` runs
only when no exception was raised, so on error the store keeps its prior
value. -/
def record_trade_store (uid : String) (tr : TradeRecord) (now : String) (d : Doc) :
    Doc :=
  match record_trade uid tr now d with
  | .ok p => p.1
  | .error _ => d

/-- Response shape of `GET /api/user/{user_id}`. -/
structure UserView where
  user_id : String
  nickname : String
  balance : ℚ
  performance : ℚ
  win_rate : ℚ
  trades_this_period : ℤ
  wins : ℤ
  period_start_balance : ℚ
  last_update : Option String
deriving DecidableEq

/-- `get_user` (main.py lines 226-255): reads the document under the lock and
never calls `_write_db`; the first component is the document as persisted
after the request. -/
def get_user (uid : String) (d : Doc) : Doc × UserView :=
  match alGet d.users uid with
  | some u =>
    let m := compute_user_metrics u
    (d, { user_id := uid
          nickname := u.nickname
          balance := m.balance
          performance := m.performance
          win_rate := m.win_rate
          trades_this_period := m.trades_this_period
          wins := m.wins
          period_start_balance := m.period_start_balance
          last_update := u.last_update })
  | none =>
    (d, { user_id := uid
          nickname := ""
          balance := round2 START_BALANCE
          performance := 0
          win_rate := 0
          trades_this_period := 0
          wins := 0
          period_start_balance := round2 START_BALANCE
          last_update := none })

/-- A UTC datetime, to the components `strftime("%Y-%m")` and the
previous-month computation use. -/
structure DT where
  year : ℤ
  month : ℕ
  day : ℕ
deriving DecidableEq

/-- Zero-pad to two digits, as `%m` does. -/
def pad2 (n : ℕ) : String := if n < 10 then "0" ++ toString n else toString n

/-- `_get_month_key`: `dt.strftime("%Y-%m")`. -/
def monthKeyOf (dt : DT) : String := toString dt.year ++ "-" ++ pad2 dt.month

/-- Gregorian leap year. -/
def isLeap (y : ℤ) : Bool := (y % 4 = 0 ∧ y % 100 ≠ 0) ∨ y % 400 = 0

/-- Length of a month, for the day `timedelta(days=1)` steps back onto. -/
def daysInMonth (y : ℤ) (m : ℕ) : ℕ :=
  if m = 2 then (if isLeap y then 29 else 28)
  else if m = 4 ∨ m = 6 ∨ m = 9 ∨ m = 11 then 30
  else 31

/-- `dt - timedelta(days=1)` restricted to the date components. -/
def subOneDay (dt : DT) : DT :=
  if 1 < dt.day then { dt with day := dt.day - 1 }
  else if dt.month = 1 then { year := dt.year - 1, month := 12, day := 31 }
  else { year := dt.year
         month := dt.month - 1
         day := daysInMonth dt.year (dt.month - 1) }

/-- `_prev_month_key`: first of the month, minus one day, formatted. -/
def prevMonthKey (dt : DT) : String := monthKeyOf (subOneDay { dt with day := 1 })

/-- `u["balance"] = ... = START_BALANCE; u["period_start_balance"] = ...;
u["trades"] = 0; u["wins"] = 0; u["last_update"] = now_iso` — the per-user
body of the reset loop in `post_close_month` (the `try` arms cannot fail on
the constant `START_BALANCE`). -/
def resetUser (u : UserRec) (ts : String) : UserRec :=
  { u with
    balance := .num (round2 START_BALANCE)
    period_start_balance := .num (round2 START_BALANCE)
    trades := 0
    wins := 0
    last_update := some ts }

/-- Response of `POST /api/close_month`. -/
inductive CloseResp where
  | alreadyClosed (month : String)
  | closed (month : String) (podium : List PodiumEntry)
deriving DecidableEq

/-- `post_close_month` (main.py lines 488-521): the document persisted after
the request (unchanged on the `already_closed` early return, which skips
`_write_db`) and the response. -/
def post_close_month (dt : DT) (ts : String) (d : Doc) : Doc × CloseResp :=
  let prev := prevMonthKey dt
  match alGet d.monthly_winners prev with
  | some _ => (d, .alreadyClosed prev)
  | none =>
    let podium := compute_podium_snapshot d.users 3
    let mw := d.monthly_winners ++ [(prev, { podium := podium, closed_at := ts })]
    let users := d.users.map (fun p => (p.1, resetUser p.2 ts))
    ({ users := users
       monthly_winners := mw
       last_month_closed := some (monthKeyOf dt)
       recent_trades := d.recent_trades }, .closed prev podium)

/-! ## Helper lemmas -/

/-- The record a request sees for `uid`: the stored one, or the
`setdefault` default. -/
def userOf (d : Doc) (uid : String) : UserRec := (alGet d.users uid).getD defaultUser

/-- The persisted document after a sequence of `POST .../trade` calls for
one user, each applied to the store the previous call left behind. -/
def runTrades (uid now : String) : List TradeRecord → Doc → Doc
  | [], d => d
  | tr :: rest, d => runTrades uid now rest (record_trade_store uid tr now d)

/-- How many of the requests have the given (lowercased) result. -/
def countResults (trs : List TradeRecord) (r : String) : ℕ :=
  (trs.filter (fun tr => pyLower tr.result = r)).length

/-- A document whose December 2025 podium is already on file. -/
def docClosed : Doc :=
  { users := [("alice", { defaultUser with balance := .num 6000 })]
    monthly_winners := [("2025-12", { podium := [], closed_at := "t0" })]
    last_month_closed := some "2026-01"
    recent_trades := [] }

/-- A document with one tracked user and no closed month yet. -/
def docOpen : Doc :=
  { users := [("alice", { defaultUser with nickname := "Al", balance := .num 6000 })]
    monthly_winners := []
    last_month_closed := none
    recent_trades := [] }

/-- A document with one user nicknamed `"A"` and one feed entry of theirs. -/
def docNick : Doc :=
  { users := [("u1", { defaultUser with nickname := "A" })]
    monthly_winners := []
    last_month_closed := none
    recent_trades := [{ ts := "t0", user_id := "u1", nickname := "A",
                        result := "win", amount := 0 }] }

theorem rhe_intCast (n : ℤ) : rhe (n : ℚ) = n := by
  simp [rhe]

theorem round2_zero : round2 0 = 0 := by
  rw [round2, show ((0 : ℚ) * 100) = ((0 : ℤ) : ℚ) by norm_num, rhe_intCast]
  norm_num

theorem round2_START : round2 START_BALANCE = START_BALANCE := by
  rw [round2, START_BALANCE,
    show ((5000 : ℚ) * 100) = ((500000 : ℤ) : ℚ) by norm_num, rhe_intCast]
  norm_num

theorem alSetdefault_snd {α : Type} (l : List (String × α)) (k : String) (v : α) :
    (alSetdefault l k v).2 = (alGet l k).getD v := by
  unfold alSetdefault
  cases h : alGet l k <;> simp [h]

theorem alGet_append_self {α : Type} (l : List (String × α)) (k : String) (v : α)
    (h : alGet l k = none) : alGet (l ++ [(k, v)]) k = some v := by
  have hf : l.find? (fun p => p.1 = k) = none := by
    cases hf : l.find? (fun p => p.1 = k) <;> simp [alGet, hf] at h ⊢
  simp [alGet, List.find?_append, hf, List.find?]

theorem alGet_alSetdefault {α : Type} (l : List (String × α)) (k : String) (v : α) :
    alGet (alSetdefault l k v).1 k = some ((alGet l k).getD v) := by
  unfold alSetdefault
  cases h : alGet l k with
  | some u => simp [h]
  | none => simp [h, alGet_append_self l k v h]

theorem alGet_alSet_self {α : Type} (l : List (String × α)) (k : String) (v : α) :
    alGet (alSet l k v) k = (alGet l k).map (fun _ => v) := by
  induction l with
  | nil => rfl
  | cons p t ih =>
    by_cases h : p.1 = k
    · simp [alGet, alSet, List.find?, h]
    · simp only [alGet, alSet, List.map_cons] at ih ⊢
      rw [if_neg h]
      simp only [List.find?]
      have hd : (decide (p.1 = k)) = false := by simp [h]
      rw [hd]
      exact ih

/-! ## C1 -/

/-- C1: a `record_trade` call whose `result` is (case-insensitively) neither
`"win"` nor `"lose"` fails with `InvalidArgument`, and the persisted document
is exactly the one from before the call: no user field, no feed entry, no
other document field changes. -/
theorem claim_C1_invalid_result_no_mutation
    (uid : String) (tr : TradeRecord) (now : String) (d : Doc)
    (hw : pyLower tr.result ≠ "win") (hl : pyLower tr.result ≠ "lose") :
    record_trade uid tr now d = .error .invalidArgument ∧
    record_trade_store uid tr now d = d := by
  have h : record_trade uid tr now d = .error .invalidArgument := by
    simp [record_trade, hw, hl]
  exact ⟨h, by simp [record_trade_store, h]⟩

theorem claim_C1_witness :
    (pyLower "draw" ≠ "win" ∧ pyLower "draw" ≠ "lose") ∧
    (record_trade "alice" { result := "draw" } "2026-10-12T00:00:00Z" Doc.empty
        = .error .invalidArgument ∧
      record_trade_store "alice" { result := "draw" } "2026-10-12T00:00:00Z" Doc.empty
        = Doc.empty) :=
  ⟨⟨by decide, by decide⟩,
    claim_C1_invalid_result_no_mutation "alice" { result := "draw" }
      "2026-10-12T00:00:00Z" Doc.empty (by decide) (by decide)⟩

/-! ## C10 -/

/-- C10: `get_user` never writes: the persisted document after the call is
the one before it, and an absent user is answered with the synthesized
defaults (balance 5000.0, performance 0.0, win_rate 0.0, 0 trades, 0 wins,
null last_update) without creating a record. -/
theorem claim_C10_get_user_pure (d : Doc) (uid : String) :
    (get_user uid d).1 = d ∧
    (alGet d.users uid = none →
      (get_user uid d).2 =
        { user_id := uid, nickname := "", balance := 5000, performance := 0,
          win_rate := 0, trades_this_period := 0, wins := 0,
          period_start_balance := 5000, last_update := none }) := by
  constructor
  · unfold get_user
    split <;> rfl
  · intro h
    simp only [get_user, h]
    rw [round2_START]
    rfl

theorem claim_C10_witness :
    alGet Doc.empty.users "alice" = none ∧
    (get_user "alice" Doc.empty).2 =
      { user_id := "alice", nickname := "", balance := 5000, performance := 0,
        win_rate := 0, trades_this_period := 0, wins := 0,
        period_start_balance := 5000, last_update := none } :=
  ⟨by decide, (claim_C10_get_user_pure Doc.empty "alice").2 (by decide)⟩

/-! ## C7 -/

/-- C7: for a user record with numeric fields, the performance metric is
`((balance - period_start_balance) / period_start_balance) * 100` rounded to
2 decimals when `period_start_balance` is nonzero, and exactly `0` when
`period_start_balance = 0`: the division branch is never taken there. -/
theorem claim_C7_performance (u : UserRec) (b s : ℚ)
    (hb : u.balance = .num b) (hs : u.period_start_balance = .num s) :
    (compute_user_metrics u).performance =
      if s = 0 then 0 else round2 (((b - s) / s) * 100) := by
  simp only [compute_user_metrics, hb, hs, NumField.coerceStart]
  by_cases h : s = 0 <;> simp [h, round2_zero]

theorem claim_C7_witness :
    ((defaultUser.balance = NumField.num 5000 ∧
        { defaultUser with
            period_start_balance := NumField.num 0 }.period_start_balance
          = NumField.num 0) ∧
      (compute_user_metrics
          { defaultUser with period_start_balance := NumField.num 0 }).performance
        = if (0 : ℚ) = 0 then 0 else round2 (((5000 - 0) / 0) * 100)) ∧
    (compute_user_metrics defaultUser).performance
      = if (5000 : ℚ) = 0 then 0 else round2 (((5000 - 5000) / 5000) * 100) :=
  ⟨⟨⟨by decide, by decide⟩,
    claim_C7_performance { defaultUser with period_start_balance := NumField.num 0 }
      5000 0 (by decide) (by decide)⟩,
    claim_C7_performance defaultUser 5000 5000 (by decide) (by decide)⟩

/-! ## C5 -/

/-- C5: the monthly close is idempotent per month key: when the previous
month already has a snapshot, `post_close_month` answers `already_closed`
and the persisted document is exactly the one from before the call — no
podium or `closed_at` recomputation, no second reset of any user. -/
theorem claim_C5_close_idempotent (dt : DT) (ts : String) (d : Doc)
    (h : (alGet d.monthly_winners (prevMonthKey dt)).isSome) :
    post_close_month dt ts d = (d, .alreadyClosed (prevMonthKey dt)) := by
  obtain ⟨x, hx⟩ := Option.isSome_iff_exists.mp h
  simp [post_close_month, hx]

theorem claim_C5_witness :
    (alGet docClosed.monthly_winners (prevMonthKey ⟨2026, 1, 15⟩)).isSome = true ∧
    post_close_month ⟨2026, 1, 15⟩ "2026-01-15T00:00:00Z" docClosed
      = (docClosed, .alreadyClosed (prevMonthKey ⟨2026, 1, 15⟩)) :=
  ⟨by decide,
    claim_C5_close_idempotent ⟨2026, 1, 15⟩ "2026-01-15T00:00:00Z" docClosed
      (by decide)⟩

/-! ## C6 -/

/-- C6: an actual close (no snapshot yet for the previous month) stores the
podium under the previous calendar month's key, sets `last_month_closed` to
the **current** month's key, and leaves every user reset to
`balance = period_start_balance = START_BALANCE`, `trades = wins = 0`, with a
freshly stamped `last_update`. -/
theorem claim_C6_close_effect (dt : DT) (ts : String) (d : Doc)
    (h : alGet d.monthly_winners (prevMonthKey dt) = none) :
    (post_close_month dt ts d).2
        = .closed (prevMonthKey dt) (compute_podium_snapshot d.users 3) ∧
    alGet (post_close_month dt ts d).1.monthly_winners (prevMonthKey dt)
        = some { podium := compute_podium_snapshot d.users 3, closed_at := ts } ∧
    (post_close_month dt ts d).1.last_month_closed = some (monthKeyOf dt) ∧
    (∀ p ∈ (post_close_month dt ts d).1.users,
        p.2.balance = .num START_BALANCE ∧
        p.2.period_start_balance = .num START_BALANCE ∧
        p.2.trades = 0 ∧ p.2.wins = 0 ∧ p.2.last_update = some ts) ∧
    prevMonthKey dt =
      (if dt.month = 1 then toString (dt.year - 1) ++ "-" ++ pad2 12
        else toString dt.year ++ "-" ++ pad2 (dt.month - 1)) := by
  simp only [post_close_month, h]
  refine ⟨trivial, alGet_append_self _ _ _ h, trivial, ?_, ?_⟩
  · intro p hp
    simp only [List.mem_map] at hp
    obtain ⟨q, _, rfl⟩ := hp
    simp [resetUser, round2_START]
  · unfold prevMonthKey subOneDay monthKeyOf
    by_cases hm : dt.month = 1 <;> simp [hm]

theorem claim_C6_witness :
    alGet docOpen.monthly_winners (prevMonthKey ⟨2026, 10, 12⟩) = none ∧
    ((post_close_month ⟨2026, 10, 12⟩ "ts1" docOpen).2
        = .closed (prevMonthKey ⟨2026, 10, 12⟩) (compute_podium_snapshot docOpen.users 3) ∧
      alGet (post_close_month ⟨2026, 10, 12⟩ "ts1" docOpen).1.monthly_winners
          (prevMonthKey ⟨2026, 10, 12⟩)
        = some { podium := compute_podium_snapshot docOpen.users 3, closed_at := "ts1" } ∧
      (post_close_month ⟨2026, 10, 12⟩ "ts1" docOpen).1.last_month_closed
        = some (monthKeyOf ⟨2026, 10, 12⟩) ∧
      (∀ p ∈ (post_close_month ⟨2026, 10, 12⟩ "ts1" docOpen).1.users,
          p.2.balance = .num START_BALANCE ∧
          p.2.period_start_balance = .num START_BALANCE ∧
          p.2.trades = 0 ∧ p.2.wins = 0 ∧ p.2.last_update = some "ts1") ∧
      prevMonthKey ⟨2026, 10, 12⟩ =
        (if (10 : ℕ) = 1 then toString ((2026 : ℤ) - 1) ++ "-" ++ pad2 12
          else toString (2026 : ℤ) ++ "-" ++ pad2 (10 - 1))) := by
  have h : alGet docOpen.monthly_winners (prevMonthKey ⟨2026, 10, 12⟩) = none := by decide
  exact ⟨h, claim_C6_close_effect ⟨2026, 10, 12⟩ "ts1" docOpen h⟩

/-! ## C8 -/

theorem enumFrom_map_add_one {α : Type} (l : List α) :
    ∀ n : ℕ, (List.enumFrom n l).map (fun p => p.1 + 1) = List.range' (n + 1) l.length := by
  induction l with
  | nil => intro n; rfl
  | cons a t ih =>
    intro n
    rw [List.enumFrom, List.map_cons, ih (n + 1), List.length_cons, List.range'_succ]

/-- C8: `compute_podium_snapshot` builds one `(user_id, nickname, balance)`
triple per user (balance coerced, defaulting to `START_BALANCE` on failure
or absence), sorts them descending by balance, takes at most the first
`top_n`, assigns 1-based positions, and rounds each kept balance to 2
decimals. -/
theorem claim_C8_podium (users : List (String × UserRec)) (top_n : ℕ) :
    ∃ sorted : List (String × String × ℚ),
      sorted.Perm (users.map podiumTriple) ∧
      sorted.Pairwise (fun a b => b.2.2 ≤ a.2.2) ∧
      compute_podium_snapshot users top_n =
        ((sorted.take top_n).enum).map (fun p =>
          { position := p.1 + 1, user_id := p.2.1, nickname := p.2.2.1,
            balance := round2 p.2.2.2 }) ∧
      (compute_podium_snapshot users top_n).length = min top_n users.length ∧
      (compute_podium_snapshot users top_n).map (fun e => e.position)
        = List.range' 1 (min top_n users.length) := by
  have htrans : ∀ a b c : String × String × ℚ,
      balDesc a b → balDesc b c → balDesc a c := by
    intro a b c
    simp only [balDesc, decide_eq_true_eq]
    intro h1 h2
    exact le_trans h2 h1
  have htotal : ∀ a b : String × String × ℚ, balDesc a b || balDesc b a := by
    intro a b
    simp only [balDesc, Bool.or_eq_true, decide_eq_true_eq]
    exact le_total b.2.2 a.2.2
  have hlen : (compute_podium_snapshot users top_n).length = min top_n users.length := by
    simp [compute_podium_snapshot, List.length_take, List.length_mergeSort]
  refine ⟨(users.map podiumTriple).mergeSort balDesc,
    List.mergeSort_perm _ _, ?_, rfl, hlen, ?_⟩
  · exact (List.sorted_mergeSort htrans htotal (users.map podiumTriple)).imp
      (fun h => by simpa [balDesc] using h)
  · rw [compute_podium_snapshot]
    simp only [List.map_map]
    have : ((((users.map podiumTriple).mergeSort balDesc).take top_n).enum).map
        (fun p => p.1 + 1) = List.range' 1
          ((((users.map podiumTriple).mergeSort balDesc).take top_n).length) :=
      enumFrom_map_add_one _ 0
    simp only [List.enum] at this ⊢
    rw [show ((fun e : PodiumEntry => e.position) ∘ (fun p : ℕ × String × String × ℚ =>
      ({ position := p.1 + 1, user_id := p.2.1, nickname := p.2.2.1,
         balance := round2 p.2.2.2 } : PodiumEntry))) = fun p => p.1 + 1 from rfl, this]
    simp [List.length_take, List.length_mergeSort]

/-! ## C2 and C3: nickname change and propagation -/

theorem alSetdefault_users_snd (d : Doc) (uid : String) :
    (alSetdefault d.users uid defaultUser).2 = userOf d uid :=
  alSetdefault_snd _ _ _

theorem alGet_alSetdefault_users (d : Doc) (uid : String) :
    alGet (alSetdefault d.users uid defaultUser).1 uid = some (userOf d uid) :=
  alGet_alSetdefault _ _ _

theorem applyBalanceUpd_nickname (u : UserRec) (o : Option ℚ) :
    (applyBalanceUpd u o).nickname = u.nickname := by cases o <;> rfl

theorem applyTradesUpd_nickname (u : UserRec) (o : Option ℤ) :
    (applyTradesUpd u o).nickname = u.nickname := by cases o <;> rfl

theorem applyWinsUpd_nickname (u : UserRec) (o : Option ℤ) :
    (applyWinsUpd u o).nickname = u.nickname := by cases o <;> rfl

theorem applyPsbUpd_nickname (u : UserRec) (o : Option ℚ) :
    (applyPsbUpd u o).nickname = u.nickname := by cases o <;> rfl

/-- C2 fails on the code: updating user `u1` (stored nickname `"A"`, one
feed entry of theirs) with nickname `""` changes the stored nickname to the
empty string — a differing resulting value — yet the feed entry keeps
nickname `"A"`: the propagation is skipped because `if changed_nick:` is
falsy on the empty string. -/
theorem claim_C2_counterexample :
    pyTake (pyStrip "") 40 = "" ∧
    (userOf docNick "u1").nickname = "A" ∧
    docNick.recent_trades.map (fun e => e.user_id) = ["u1"] ∧
    (update_user "u1" { nickname := some "" } "t1" docNick).2.nickname = "" ∧
    (update_user "u1" { nickname := some "" } "t1" docNick).1.recent_trades.map
      (fun e => e.nickname) = ["A"] := by
  decide

/-- C2, amended: a provided nickname is trimmed and truncated to 40
characters; whenever the result differs from the stored nickname the record
is updated, and every feed entry of the user is rewritten to it **when the
new value is non-empty** — an empty new value updates the record but leaves
the trade feed untouched. -/
theorem claim_C2_nickname_update (d : Doc) (uid s now : String) (upd : UserUpdate)
    (hnick : upd.nickname = some s)
    (hdiff : pyTake (pyStrip s) 40 ≠ (userOf d uid).nickname) :
    (update_user uid upd now d).2.nickname = pyTake (pyStrip s) 40 ∧
    alGet (update_user uid upd now d).1.users uid
      = some (update_user uid upd now d).2 ∧
    (update_user uid upd now d).1.recent_trades =
      (if pyTake (pyStrip s) 40 = "" then d.recent_trades
        else propagateNick uid (pyTake (pyStrip s) 40) d.recent_trades) := by
  simp only [update_user, hnick, alSetdefault_users_snd, applyNickUpd]
  rw [if_neg hdiff]
  refine ⟨?_, ?_, ?_⟩
  · simp [applyPsbUpd_nickname, applyWinsUpd_nickname, applyTradesUpd_nickname,
      applyBalanceUpd_nickname]
  · rw [alGet_alSet_self, alGet_alSetdefault_users]
    rfl
  · by_cases he : pyTake (pyStrip s) 40 = "" <;> simp [nickTruthy, he]

theorem claim_C2_witness :
    (({ nickname := some "Bee" } : UserUpdate).nickname = some "Bee" ∧
      pyTake (pyStrip "Bee") 40 ≠ (userOf docNick "u1").nickname) ∧
    ((update_user "u1" { nickname := some "Bee" } "t1" docNick).2.nickname
        = pyTake (pyStrip "Bee") 40 ∧
      alGet (update_user "u1" { nickname := some "Bee" } "t1" docNick).1.users "u1"
        = some (update_user "u1" { nickname := some "Bee" } "t1" docNick).2 ∧
      (update_user "u1" { nickname := some "Bee" } "t1" docNick).1.recent_trades =
        (if pyTake (pyStrip "Bee") 40 = "" then docNick.recent_trades
          else propagateNick "u1" (pyTake (pyStrip "Bee") 40) docNick.recent_trades)) :=
  ⟨⟨rfl, by decide⟩,
    claim_C2_nickname_update docNick "u1" "Bee" "t1" { nickname := some "Bee" }
      rfl (by decide)⟩

/-- C3 fails on the code: supplying nickname `""` to a user whose stored
nickname is `"A"` rewrites their existing feed entry to `""` on the
record-trade path (the loop sits inside the `!=` check), but leaves it as
`"A"` on the user-update path (guarded by truthiness of `changed_nick`):
the two code paths do not implement the same propagate behavior. -/
theorem claim_C3_counterexample :
    pyTake (pyStrip "") 40 = "" ∧
    (userOf docNick "u1").nickname = "A" ∧
    (record_trade_store "u1" { result := "win", nickname := some "" } "t1"
        docNick).recent_trades.map (fun e => e.nickname) = ["", ""] ∧
    (update_user "u1" { nickname := some "" } "t1" docNick).1.recent_trades.map
      (fun e => e.nickname) = ["A"] ∧
    ((alGet (record_trade_store "u1" { result := "win", nickname := some "" } "t1"
        docNick).users "u1").map (fun u => u.nickname) = some "" ∧
      (update_user "u1" { nickname := some "" } "t1" docNick).2.nickname = "") := by
  decide

/-- C3, amended: the two nickname code paths agree whenever the trimmed,
truncated nickname is non-empty or equals the stored one: supplying it with
a (valid, amount-less) trade and supplying it to the user update give the
same record nickname, and the feed entries present before the call end up
with the same nickname fields (on the trade path they sit after the newly
prepended entry).  The counterexample shows they diverge in the remaining
case (empty and differing). -/
theorem claim_C3_nickname_paths_agree (d : Doc) (uid s now : String)
    (hlen : d.recent_trades.length < 500)
    (hcond : pyTake (pyStrip s) 40 ≠ "" ∨
      pyTake (pyStrip s) 40 = (userOf d uid).nickname) :
    ∃ d1 u1,
      record_trade uid { result := "win", amount := none, nickname := some s } now d
        = .ok (d1, u1) ∧
      u1.nickname = (update_user uid { nickname := some s } now d).2.nickname ∧
      d1.recent_trades.tail = (update_user uid { nickname := some s } now d).1.recent_trades := by
  have hres : pyLower "win" = "win" := by decide
  have hlen' : d.recent_trades.length ≤ 499 := by omega
  simp only [record_trade, update_user, nickStepTrade, applyNickUpd,
    alSetdefault_users_snd, hres, eq_self_iff_true, true_or, if_true]
  by_cases hstored : pyTake (pyStrip s) 40 = (userOf d uid).nickname
  · rw [if_pos hstored, if_pos hstored]
    refine ⟨_, _, rfl, ?_, ?_⟩
    · simp [applyPsbUpd_nickname, applyWinsUpd_nickname, applyTradesUpd_nickname,
        applyBalanceUpd_nickname]
    · simp only [nickTruthy, Bool.false_eq_true, if_false]
      rw [show (500 : ℕ) = 499 + 1 from rfl, List.take_succ_cons, List.tail_cons,
        List.take_of_length_le hlen']
  · have hne : pyTake (pyStrip s) 40 ≠ "" := hcond.resolve_right hstored
    rw [if_neg hstored, if_neg hstored]
    refine ⟨_, _, rfl, ?_, ?_⟩
    · simp [applyPsbUpd_nickname, applyWinsUpd_nickname, applyTradesUpd_nickname,
        applyBalanceUpd_nickname]
    · simp only [nickTruthy, hne, ne_eq, not_false_eq_true, Option.getD_some]
      rw [show (500 : ℕ) = 499 + 1 from rfl, List.take_succ_cons, List.tail_cons,
        List.take_of_length_le (by simpa [propagateNick] using hlen')]
      simp

theorem claim_C3_witness :
    (docNick.recent_trades.length < 500 ∧
      (pyTake (pyStrip "Cee") 40 ≠ "" ∨
        pyTake (pyStrip "Cee") 40 = (userOf docNick "u1").nickname)) ∧
    (∃ d1 u1,
      record_trade "u1" { result := "win", amount := none, nickname := some "Cee" }
          "t1" docNick = .ok (d1, u1) ∧
      u1.nickname = (update_user "u1" { nickname := some "Cee" } "t1" docNick).2.nickname ∧
      d1.recent_trades.tail
        = (update_user "u1" { nickname := some "Cee" } "t1" docNick).1.recent_trades) :=
  ⟨⟨by decide, Or.inl (by decide)⟩,
    claim_C3_nickname_paths_agree docNick "u1" "Cee" "t1" (by decide)
      (Or.inl (by decide))⟩

/-! ## C4 and C9: trade accounting -/

theorem nickStepTrade_preserves (uid : String) (u : UserRec)
    (recent : List TradeEntry) (o : Option String) :
    (nickStepTrade uid u recent o).1.balance = u.balance ∧
    (nickStepTrade uid u recent o).1.trades = u.trades ∧
    (nickStepTrade uid u recent o).1.wins = u.wins ∧
    (nickStepTrade uid u recent o).1.period_start_balance = u.period_start_balance := by
  cases o with
  | none => exact ⟨rfl, rfl, rfl, rfl⟩
  | some nk =>
    simp only [nickStepTrade]
    split <;> exact ⟨rfl, rfl, rfl, rfl⟩

/-- What one valid `record_trade` call does to the stored record, for any
prior state whose stored balance is not a non-coercible value. -/
theorem record_trade_ok_spec (uid : String) (tr : TradeRecord) (now : String) (d : Doc)
    (hval : pyLower tr.result = "win" ∨ pyLower tr.result = "lose")
    (hb : (userOf d uid).balance ≠ .bad) :
    ∃ d' u', record_trade uid tr now d = .ok (d', u') ∧
      alGet d'.users uid = some u' ∧
      u'.trades = (userOf d uid).trades + 1 ∧
      u'.wins = (userOf d uid).wins + (if pyLower tr.result = "win" then 1 else 0) ∧
      u'.balance = (match tr.amount with
        | none => (userOf d uid).balance.orStart
        | some a => .num (round2 (if pyLower tr.result = "win"
            then (userOf d uid).balance.orStart.coerceStart + a
            else (userOf d uid).balance.orStart.coerceStart - a))) ∧
      u'.balance ≠ .bad := by
  obtain ⟨hb1, ht1, hw1, hp1⟩ :=
    nickStepTrade_preserves uid (userOf d uid) d.recent_trades tr.nickname
  have horb : (userOf d uid).balance.orStart ≠ .bad := by
    cases hx : (userOf d uid).balance <;> simp [NumField.orStart]
    exact hb hx
  simp only [record_trade, alSetdefault_users_snd]
  rw [if_pos hval]
  rcases ham : tr.amount with _ | a <;>
    rcases hbal : (userOf d uid).balance with b | _ | _ <;>
      [skip; exact absurd hbal hb; skip; skip; exact absurd hbal hb; skip] <;>
    by_cases hwin : pyLower tr.result = "win" <;>
    simp only [ham, hb1, hbal, hwin, if_true, if_false, NumField.orStart,
      NumField.coerce?] <;>
    refine ⟨_, _, rfl, by rw [alGet_alSet_self, alGet_alSetdefault_users]; rfl,
      by simp [ht1], by simp [hw1, hwin], ?_, ?_⟩ <;>
    simp [hb1, hbal, NumField.orStart, NumField.coerceStart, hwin]

/-- C4: a valid trade increments `trades` by 1, increments `wins` iff the
result is a win, and adjusts the balance only when `amount` is provided:
`round2(balance + amount)` on a win, `round2(balance - amount)` on a loss,
and exactly the old balance when `amount` is omitted (counters still move). -/
theorem claim_C4_trade_effect (uid now : String) (tr : TradeRecord) (d : Doc) (b : ℚ)
    (hval : pyLower tr.result = "win" ∨ pyLower tr.result = "lose")
    (hb : (userOf d uid).balance = .num b) :
    ∃ d' u', record_trade uid tr now d = .ok (d', u') ∧
      alGet d'.users uid = some u' ∧
      u'.trades = (userOf d uid).trades + 1 ∧
      u'.wins = (userOf d uid).wins + (if pyLower tr.result = "win" then 1 else 0) ∧
      u'.balance = (match tr.amount with
        | none => .num b
        | some a => .num (round2 (if pyLower tr.result = "win"
            then b + a else b - a))) := by
  obtain ⟨d', u', h1, h2, h3, h4, h5, _⟩ :=
    record_trade_ok_spec uid tr now d hval (by rw [hb]; intro h; cases h)
  refine ⟨d', u', h1, h2, h3, h4, ?_⟩
  rw [h5, hb]
  cases tr.amount <;> rfl

theorem claim_C4_witness :
    ((pyLower "win" = "win" ∨ pyLower "win" = "lose") ∧
      (userOf docNick "u1").balance = NumField.num 5000) ∧
    (∃ d' u', record_trade "u1" { result := "win", amount := some 100 } "t1" docNick
        = .ok (d', u') ∧
      alGet d'.users "u1" = some u' ∧
      u'.trades = (userOf docNick "u1").trades + 1 ∧
      u'.wins = (userOf docNick "u1").wins
        + (if pyLower ({ result := "win", amount := some 100 } : TradeRecord).result
              = "win" then 1 else 0) ∧
      u'.balance = (match ({ result := "win", amount := some 100 } : TradeRecord).amount
        with
        | none => NumField.num 5000
        | some a =>
          NumField.num (round2 (if pyLower ({ result := "win", amount := some 100 } :
              TradeRecord).result = "win" then 5000 + a else 5000 - a)))) :=
  ⟨⟨Or.inl (by decide), by decide⟩,
    claim_C4_trade_effect "u1" "t1" { result := "win", amount := some 100 } docNick
      5000 (Or.inl (by decide)) (by decide)⟩

theorem countResults_cons (tr : TradeRecord) (trs : List TradeRecord) (r : String) :
    countResults (tr :: trs) r
      = (if pyLower tr.result = r then 1 else 0) + countResults trs r := by
  by_cases h : pyLower tr.result = r
  · simp [countResults, List.filter_cons, h, Nat.add_comm]
  · simp [countResults, List.filter_cons, h]

/-- Counter accounting across a whole sequence of valid trades. -/
theorem runTrades_counters (uid now : String) (trs : List TradeRecord) :
    ∀ d : Doc,
    (∀ tr ∈ trs, pyLower tr.result = "win" ∨ pyLower tr.result = "lose") →
    (userOf d uid).balance ≠ .bad →
    (userOf (runTrades uid now trs d) uid).balance ≠ .bad ∧
    (userOf (runTrades uid now trs d) uid).trades
      = (userOf d uid).trades + (countResults trs "win" : ℤ)
        + (countResults trs "lose" : ℤ) ∧
    (userOf (runTrades uid now trs d) uid).wins
      = (userOf d uid).wins + (countResults trs "win" : ℤ) := by
  induction trs with
  | nil =>
    intro d _ hb
    refine ⟨hb, ?_, ?_⟩ <;> simp [runTrades, countResults]
  | cons tr rest ih =>
    intro d hval hb
    have hv := hval tr (List.mem_cons_self _ _)
    obtain ⟨d', u', h1, h2, h3, h4, _, h6⟩ := record_trade_ok_spec uid tr now d hv hb
    have hstore : record_trade_store uid tr now d = d' := by
      simp [record_trade_store, h1]
    have huser : userOf d' uid = u' := by simp [userOf, h2]
    obtain ⟨ihb, iht, ihw⟩ :=
      ih d' (fun t ht => hval t (List.mem_cons_of_mem _ ht)) (by rw [huser]; exact h6)
    rw [runTrades, hstore]
    have hwl : ("win" : String) ≠ "lose" := by decide
    refine ⟨ihb, ?_, ?_⟩
    · rw [iht, huser, h3, countResults_cons, countResults_cons]
      rcases hv with hw | hl
      · rw [hw]
        simp [hwl]
        omega
      · rw [hl]
        have : pyLower tr.result ≠ "win" := by rw [hl]; exact hwl.symm
        simp [this]
        omega
    · rw [ihw, huser, h4, countResults_cons]
      rcases hv with hw | hl
      · simp [hw]
        omega
      · have : pyLower tr.result ≠ "win" := by rw [hl]; exact hwl.symm
        simp [this]

/-- C9: starting from the default-synthesized record (`trades = wins = 0`),
after any sequence of valid trades the stored `trades` equals `wins` plus
the number of recorded losses, and `wins ≤ trades` holds after every prefix
of the sequence. -/
theorem claim_C9_counters (uid now : String) (trs : List TradeRecord) (d0 : Doc) (k : ℕ)
    (h0 : userOf d0 uid = defaultUser)
    (hval : ∀ tr ∈ trs, pyLower tr.result = "win" ∨ pyLower tr.result = "lose") :
    (userOf (runTrades uid now trs d0) uid).trades
      = (userOf (runTrades uid now trs d0) uid).wins
        + (countResults trs "lose" : ℤ) ∧
    (userOf (runTrades uid now (trs.take k) d0) uid).wins
      ≤ (userOf (runTrades uid now (trs.take k) d0) uid).trades := by
  have hb0 : (userOf d0 uid).balance ≠ .bad := by
    rw [h0]
    intro h
    cases h
  constructor
  · obtain ⟨_, ht, hw⟩ := runTrades_counters uid now trs d0 hval hb0
    rw [ht, hw, h0]
    simp [defaultUser]
  · obtain ⟨_, ht, hw⟩ := runTrades_counters uid now (trs.take k) d0
      (fun t htk => hval t (List.take_subset k trs htk)) hb0
    rw [ht, hw, h0]
    simp [defaultUser]

theorem claim_C9_witness :
    (userOf Doc.empty "u1" = defaultUser ∧
      (∀ tr ∈ [({ result := "win", amount := some 100 } : TradeRecord),
          { result := "lose", amount := some 50 }],
        pyLower tr.result = "win" ∨ pyLower tr.result = "lose")) ∧
    ((userOf (runTrades "u1" "t1"
          [{ result := "win", amount := some 100 }, { result := "lose", amount := some 50 }]
          Doc.empty) "u1").trades
        = (userOf (runTrades "u1" "t1"
            [{ result := "win", amount := some 100 }, { result := "lose", amount := some 50 }]
            Doc.empty) "u1").wins
          + (countResults
              [{ result := "win", amount := some 100 }, { result := "lose", amount := some 50 }]
              "lose" : ℤ) ∧
      (userOf (runTrades "u1" "t1"
          ([({ result := "win", amount := some 100 } : TradeRecord),
            { result := "lose", amount := some 50 }].take 1) Doc.empty) "u1").wins
        ≤ (userOf (runTrades "u1" "t1"
            ([({ result := "win", amount := some 100 } : TradeRecord),
              { result := "lose", amount := some 50 }].take 1) Doc.empty) "u1").trades) :=
  ⟨⟨by decide, by decide⟩,
    claim_C9_counters "u1" "t1"
      [{ result := "win", amount := some 100 }, { result := "lose", amount := some 50 }]
      Doc.empty 1 (by decide) (by decide)⟩

end Kenztopia
